import Mathlib

/-!
# demo-api: task validation, store, cache and handler

A shallow embedding of `internal/model/task.go`, `internal/store/postgres.go`,
`internal/cache/redis.go`, `internal/queue/kafka.go` and
`internal/handler/task.go`.

Modelling conventions:
* timestamps (`time.Time`) are natural numbers, the nanoseconds of a reading
  of the wall clock; a `TIMESTAMPTZ` column keeps the whole microseconds;
* the `tasks` table is the list of its rows, `id` being its primary key;
* the Redis keyspace is an association list from key to the cached task
  (a value is the JSON of a task, which `encoding/json` reads back unchanged);
* every call that leaves the process (a SQL statement, a Redis command, a Kafka
  write, a clock reading, a fresh UUID) takes its outcome from an explicit
  environment record `Env`, one per request.
-/

namespace DemoApi

/-! ## internal/model/task.go -/

/-- The `model.Task` struct. -/
structure Task where
  id : String
  title : String
  description : String
  status : String
  priority : String
  createdAt : Nat
  updatedAt : Nat
  deriving DecidableEq, Repr

/-- The `model.CreateTaskRequest` struct. -/
structure CreateTaskRequest where
  title : String
  description : String
  priority : String
  deriving DecidableEq, Repr

/-- The `model.UpdateTaskRequest` struct: a nil pointer is `none`. -/
structure UpdateTaskRequest where
  title : Option String
  description : Option String
  status : Option String
  priority : Option String
  deriving DecidableEq, Repr

/-- The `model.TaskEvent` struct; `data` is the task or nil. -/
structure TaskEvent where
  type : String
  taskID : String
  timestamp : Nat
  data : Option Task
  deriving DecidableEq, Repr

/-- The package variable `ValidStatuses`. -/
def ValidStatuses : List String := ["todo", "in_progress", "done"]

/-- The package variable `ValidPriorities`. -/
def ValidPriorities : List String := ["low", "medium", "high"]

/-- The function `contains`: a linear scan of the slice. -/
def contains : List String → String → Bool
  | [], _ => false
  | s :: rest, item => if s = item then true else contains rest item

/-- The method `(*CreateTaskRequest).Validate`: the returned message together
with the request as the call leaves it (the receiver is a pointer). -/
def Validate (r : CreateTaskRequest) : String × CreateTaskRequest :=
  if r.title = "" then
    ("title is required", r)
  else
    let r1 : CreateTaskRequest := if r.priority = "" then { r with priority := "medium" } else r
    if !contains ValidPriorities r1.priority then
      ("priority must be low, medium, or high", r1)
    else
      ("", r1)

/-! ## internal/store/postgres.go -/

/-- An error value returned by the store: `pgx.ErrNoRows`, or any other error
with its `Error()` text. -/
inductive StoreError where
  | errNoRows
  | other (msg : String)
  deriving DecidableEq, Repr

/-- The `Error()` text of a store error. -/
def StoreError.Error : StoreError → String
  | .errNoRows => "no rows in result set"
  | .other m => m

/-- The rows of the table `tasks` created by `Migrate`. -/
abbrev Rows := List Task

/-- The state behind a `*PostgresStore`: the rows of `tasks`. -/
abbrev PostgresStore := List Task

/-- The method `(*PostgresStore).Get`: `SELECT ... WHERE id = $1` scanned into
a task. `fault` is the driver error of the statement, if it has one; with no
row `Scan` returns `pgx.ErrNoRows`. -/
def PostgresStore.Get (s : PostgresStore) (fault : Option String) (id : String) :
    Except StoreError Task :=
  match fault with
  | some m => .error (.other m)
  | none =>
    match s.find? (fun t => decide (t.id = id)) with
    | none => .error .errNoRows
    | some t => .ok t

/-- What a `TIMESTAMPTZ` column (`created_at`, `updated_at` in `Migrate`) keeps
of a time given in nanoseconds: the whole microseconds. -/
def timestamptz (ns : Nat) : Nat := ns / 1000 * 1000

/-- The method `(*PostgresStore).Create`. `uuid` is the value of
`uuid.New().String()`, `now1` and `now2` the two successive readings of
`time.Now().UTC()`, `fault` the driver error of the `INSERT`, if it has one.
The `INSERT` is rejected when a row with the same `id` exists (`id` is the
primary key of the table). The task returned is the struct built in memory,
the row inserted holds its two times as the columns keep them. -/
def PostgresStore.Create (s : PostgresStore) (uuid : String) (now1 now2 : Nat)
    (fault : Option String) (req : CreateTaskRequest) :
    Except StoreError (Task × PostgresStore) :=
  let t : Task :=
    { id := uuid
      title := req.title
      description := req.description
      status := "todo"
      priority := req.priority
      createdAt := now1
      updatedAt := now2 }
  match fault with
  | some m => .error (.other m)
  | none =>
    if s.any (fun r => decide (r.id = t.id)) then
      .error (.other "duplicate key value violates unique constraint tasks_pkey")
    else
      .ok (t, s ++ [{ t with
        createdAt := timestamptz t.createdAt
        updatedAt := timestamptz t.updatedAt }])

/-- The method `(*PostgresStore).Update`: read, overwrite the fields present
in the request, stamp `updated_at`, write back. `now` is the reading of
`time.Now().UTC()`, `getFault` and `execFault` the driver errors of the
`SELECT` and of the `UPDATE`, if they have one. The task returned is the
struct in memory, the row written holds `updated_at` as the column keeps it. -/
def PostgresStore.Update (s : PostgresStore) (id : String) (req : UpdateTaskRequest)
    (now : Nat) (getFault execFault : Option String) :
    Except StoreError (Task × PostgresStore) :=
  match PostgresStore.Get s getFault id with
  | .error err => .error err
  | .ok existing =>
    let e1 : Task := match req.title with
      | some v => { existing with title := v }
      | none => existing
    let e2 : Task := match req.description with
      | some v => { e1 with description := v }
      | none => e1
    let e3 : Task := match req.status with
      | some v => { e2 with status := v }
      | none => e2
    let e4 : Task := match req.priority with
      | some v => { e3 with priority := v }
      | none => e3
    let e5 : Task := { e4 with updatedAt := now }
    match execFault with
    | some m => .error (.other m)
    | none =>
      .ok (e5, s.map (fun r =>
        if r.id = id then
          { r with
            title := e5.title
            description := e5.description
            status := e5.status
            priority := e5.priority
            updatedAt := timestamptz e5.updatedAt }
        else r))

/-- The method `(*PostgresStore).Delete`: `DELETE ... WHERE id = $1`, an error
`task not found` when no row was affected. `fault` is the driver error of the
statement, if it has one. -/
def PostgresStore.Delete (s : PostgresStore) (fault : Option String) (id : String) :
    Except StoreError PostgresStore :=
  match fault with
  | some m => .error (.other m)
  | none =>
    let rowsAffected := s.countP (fun r => decide (r.id = id))
    if rowsAffected = 0 then
      .error (.other "task not found")
    else
      .ok (s.filter (fun r => !decide (r.id = id)))

/-- The order of `ORDER BY created_at DESC`. -/
def createdDesc (a b : Task) : Prop := b.createdAt ≤ a.createdAt

instance : DecidableRel createdDesc := fun a b => inferInstanceAs (Decidable (b.createdAt ≤ a.createdAt))

/-- The method `(*PostgresStore).List`: all rows, newest `created_at` first
(never nil). `fault` is the error of the query or of the row scan, if any. -/
def PostgresStore.List (s : PostgresStore) (fault : Option String) :
    Except StoreError Rows :=
  match fault with
  | some m => .error (.other m)
  | none => .ok (s.insertionSort createdDesc)

/-! ## internal/cache/redis.go -/

/-- The Redis keyspace used by a `*RedisCache`: key and cached task. -/
abbrev RedisCache := List (String × Task)

/-- The function `taskKey`. -/
def taskKey (id : String) : String := "task:" ++ id

/-- The Redis command `DEL key`. -/
def redisDel (c : RedisCache) (key : String) : RedisCache :=
  c.filter (fun kv => !decide (kv.1 = key))

/-- Expiry of the keys `keys` (every entry is written with the time-to-live
`ttl`, five minutes). -/
def redisExpire (c : RedisCache) (keys : List String) : RedisCache :=
  c.filter (fun kv => !keys.contains kv.1)

/-- The method `(*RedisCache).Get`: `none` is a returned error (key absent or
a failed command, `fails`). -/
def RedisCache.Get (c : RedisCache) (fails : Bool) (id : String) : Option Task :=
  if fails then none else c.lookup (taskKey id)

/-- The method `(*RedisCache).Set`: the keyspace after the call (the callers
discard the returned error; a failed command, `fails`, writes nothing). -/
def RedisCache.Set (c : RedisCache) (fails : Bool) (task : Task) : RedisCache :=
  if fails then c else (taskKey task.id, task) :: redisDel c (taskKey task.id)

/-- The method `(*RedisCache).Delete`: the keyspace after the call (the
callers discard the returned error; a failed command removes nothing). -/
def RedisCache.Delete (c : RedisCache) (fails : Bool) (id : String) : RedisCache :=
  if fails then c else redisDel c (taskKey id)

/-- The method `(*RedisCache).InvalidateList`: the keyspace after the call. -/
def RedisCache.InvalidateList (c : RedisCache) (fails : Bool) : RedisCache :=
  if fails then c else redisDel c "tasks:list"

/-! ## internal/queue/kafka.go -/

/-- The method `(*KafkaProducer).PublishEvent` over the log of the events
written to the topic: `now` is the reading of `time.Now().UTC()`; a failed
write (`fails`) is logged and the event is lost. -/
def PublishEvent (log : List TaskEvent) (fails : Bool) (now : Nat)
    (eventType taskID : String) (data : Option Task) : List TaskEvent :=
  let event : TaskEvent := { type := eventType, taskID := taskID, timestamp := now, data := data }
  if fails then log else log ++ [event]

/-! ## internal/handler/task.go -/

/-- The `TaskHandler` struct: whether `cache` and `producer` are non-nil
(the store is the state, the logger has no effect on it). -/
structure TaskHandler where
  cache : Bool
  producer : Bool
  deriving DecidableEq, Repr

/-- What a request acts on: the table, the Redis keyspace, the event log. -/
structure State where
  store : PostgresStore
  cache : RedisCache
  events : List TaskEvent
  deriving DecidableEq, Repr

/-- The JSON body written by a handler. -/
inductive Body where
  | error (msg : String)
  | task (t : Task)
  | tasks (ts : List Task)
  | empty
  deriving DecidableEq, Repr

/-- The HTTP response of a handler: status code and body. -/
structure Response where
  status : Nat
  body : Body
  deriving DecidableEq, Repr

/-- The outcome, during one request, of every call that leaves the process. -/
structure Env where
  uuid : String
  now1 : Nat
  now2 : Nat
  publishNow : Nat
  dbFault1 : Option String
  dbFault2 : Option String
  cacheGetFails : Bool
  cacheSetFails : Bool
  cacheDelFails : Bool
  cacheInvalidateFails : Bool
  publishFails : Bool
  expired : List String
  deriving DecidableEq, Repr

/-- The function `writeJSON` with a `map[string]string` holding `error`. -/
def writeError (status : Nat) (msg : String) : Response :=
  { status := status, body := .error msg }

/-- The method `(*TaskHandler).Get`. -/
def TaskHandler.Get (h : TaskHandler) (env : Env) (st : State) (id : String) :
    Response × State :=
  let hit : Option Task :=
    if h.cache then RedisCache.Get st.cache env.cacheGetFails id else none
  match hit with
  | some task => ({ status := 200, body := .task task }, st)
  | none =>
    match PostgresStore.Get st.store env.dbFault1 id with
    | .error .errNoRows => (writeError 404 "task not found", st)
    | .error (.other _) => (writeError 500 "failed to get task", st)
    | .ok task =>
      let cache1 := if h.cache then RedisCache.Set st.cache env.cacheSetFails task else st.cache
      ({ status := 200, body := .task task }, { st with cache := cache1 })

/-- The method `(*TaskHandler).Create`; `body` is the decoded request body,
`none` when it is not valid JSON. -/
def TaskHandler.Create (h : TaskHandler) (env : Env) (st : State)
    (body : Option CreateTaskRequest) : Response × State :=
  match body with
  | none => (writeError 400 "invalid JSON", st)
  | some req0 =>
    let msg := (Validate req0).1
    let req := (Validate req0).2
    if msg ≠ "" then
      (writeError 400 msg, st)
    else
      match PostgresStore.Create st.store env.uuid env.now1 env.now2 env.dbFault1 req with
      | .error _ => (writeError 500 "failed to create task", st)
      | .ok (task, store1) =>
        let cache1 :=
          if h.cache then RedisCache.InvalidateList st.cache env.cacheInvalidateFails
          else st.cache
        let events1 :=
          if h.producer then
            PublishEvent st.events env.publishFails env.publishNow "task.created" task.id (some task)
          else st.events
        ({ status := 201, body := .task task },
          { store := store1, cache := cache1, events := events1 })

/-- The method `(*TaskHandler).Update`; `body` is the decoded request body,
`none` when it is not valid JSON. -/
def TaskHandler.Update (h : TaskHandler) (env : Env) (st : State) (id : String)
    (body : Option UpdateTaskRequest) : Response × State :=
  match body with
  | none => (writeError 400 "invalid JSON", st)
  | some req =>
    match PostgresStore.Update st.store id req env.now1 env.dbFault1 env.dbFault2 with
    | .error .errNoRows => (writeError 404 "task not found", st)
    | .error (.other _) => (writeError 500 "failed to update task", st)
    | .ok (task, store1) =>
      let cache1 :=
        if h.cache then
          RedisCache.InvalidateList
            (RedisCache.Delete st.cache env.cacheDelFails id) env.cacheInvalidateFails
        else st.cache
      let events1 :=
        if h.producer then
          PublishEvent st.events env.publishFails env.publishNow "task.updated" task.id (some task)
        else st.events
      ({ status := 200, body := .task task },
        { store := store1, cache := cache1, events := events1 })

/-- The method `(*TaskHandler).Delete`. -/
def TaskHandler.Delete (h : TaskHandler) (env : Env) (st : State) (id : String) :
    Response × State :=
  match PostgresStore.Delete st.store env.dbFault1 id with
  | .error err =>
    if err.Error = "task not found" then
      (writeError 404 "task not found", st)
    else
      (writeError 500 "failed to delete task", st)
  | .ok store1 =>
    let cache1 :=
      if h.cache then
        RedisCache.InvalidateList
          (RedisCache.Delete st.cache env.cacheDelFails id) env.cacheInvalidateFails
      else st.cache
    let events1 :=
      if h.producer then
        PublishEvent st.events env.publishFails env.publishNow "task.deleted" id none
      else st.events
    ({ status := 204, body := .empty },
      { store := store1, cache := cache1, events := events1 })

/-- The method `(*TaskHandler).List`. -/
def TaskHandler.List (_h : TaskHandler) (env : Env) (st : State) : Response × State :=
  match PostgresStore.List st.store env.dbFault1 with
  | .error _ => (writeError 500 "failed to list tasks", st)
  | .ok tasks => ({ status := 200, body := .tasks tasks }, st)

/-- A request as routed by `Routes`. -/
inductive Request where
  | list
  | get (id : String)
  | create (body : Option CreateTaskRequest)
  | update (id : String) (body : Option UpdateTaskRequest)
  | delete (id : String)
  deriving DecidableEq, Repr

/-- The routing of `Routes`: one request served in the environment `env`,
after the cache entries `env.expired` have timed out. -/
def serve (h : TaskHandler) (env : Env) (req : Request) (st : State) : Response × State :=
  let st0 : State := { st with cache := redisExpire st.cache env.expired }
  match req with
  | .list => TaskHandler.List h env st0
  | .get id => TaskHandler.Get h env st0 id
  | .create body => TaskHandler.Create h env st0 body
  | .update id body => TaskHandler.Update h env st0 id body
  | .delete id => TaskHandler.Delete h env st0 id

/-- A sequence of requests served one after the other: the responses in
order and the final state. -/
def run (h : TaskHandler) : List (Env × Request) → State → List Response × State
  | [], st => ([], st)
  | (env, req) :: rest, st =>
    let r := serve h env req st
    let rs := run h rest r.2
    (r.1 :: rs.1, rs.2)

/-- The state of a fresh deployment: empty table, empty cache, no event. -/
def emptyState : State := { store := [], cache := [], events := [] }

/-- An environment in which nothing fails and nothing expires. -/
def quietEnv (uuid : String) (now : Nat) : Env :=
  { uuid := uuid, now1 := now, now2 := now, publishNow := now
    dbFault1 := none, dbFault2 := none
    cacheGetFails := false, cacheSetFails := false, cacheDelFails := false
    cacheInvalidateFails := false, publishFails := false, expired := [] }

/-- A stored task used in the worked examples. -/
def sampleTask : Task :=
  { id := "a", title := "Test", description := "", status := "todo", priority := "medium"
    createdAt := 1000, updatedAt := 1000 }

/-- An environment in which the database connection is refused. -/
def dbDownEnv : Env :=
  { uuid := "u", now1 := 0, now2 := 0, publishNow := 0
    dbFault1 := some "connection refused", dbFault2 := none
    cacheGetFails := false, cacheSetFails := false, cacheDelFails := false
    cacheInvalidateFails := false, publishFails := false, expired := [] }

/-- Cache coherence: every task cached under the key of an id is the row
the table holds under that id. -/
def Coherent (c : RedisCache) (s : PostgresStore) : Prop :=
  ∀ id t, c.lookup (taskKey id) = some t → PostgresStore.Get s none id = .ok t

/-- The requests of a sequence during which no cache eviction fails and the
store answers the query of every Get without a driver error. -/
def EvictionsHold (reqs : List (Env × Request)) : Prop :=
  ∀ q ∈ reqs, q.1.cacheDelFails = false ∧ ∀ id, q.2 = Request.get id → q.1.dbFault1 = none

/-- An environment in which nothing fails but the cache eviction. -/
def evictionLostEnv : Env :=
  { uuid := "u", now1 := 3000, now2 := 3000, publishNow := 3000
    dbFault1 := none, dbFault2 := none
    cacheGetFails := false, cacheSetFails := false, cacheDelFails := true
    cacheInvalidateFails := false, publishFails := false, expired := [] }

/-- Two outcomes of a request, the first from a handler with the cache, agree:
same response, same table, same event log, and the first cache is coherent
with the table. -/
def SameOutcome (r1 r2 : Response × State) : Prop :=
  r1.1 = r2.1 ∧ r1.2.store = r2.2.store ∧ r1.2.events = r2.2.events ∧
    Coherent r1.2.cache r1.2.store

/-- A task is created, read (and so cached), updated while the eviction of
its cache entry fails, and read again. -/
def staleReads : List (Env × Request) :=
  [ (quietEnv "id-1" 1000,
      .create (some { title := "Test", description := "", priority := "" })),
    (quietEnv "id-2" 2000, .get "id-1"),
    (evictionLostEnv, .update "id-1"
      (some { title := none, description := none, status := some "done", priority := none })),
    (quietEnv "id-4" 4000, .get "id-1") ]

/-- A task is created, read (and so cached), and read again while the
database connection is refused. -/
def outageReads : List (Env × Request) :=
  [ (quietEnv "id-1" 1000,
      .create (some { title := "Test", description := "", priority := "" })),
    (quietEnv "id-2" 2000, .get "id-1"),
    (dbDownEnv, .get "id-1") ]

/-- A task is created while the clock reads half a microsecond past a whole
one, then read. -/
def roundTripReads : List (Env × Request) :=
  [ (quietEnv "id-1" 1500,
      .create (some { title := "Test", description := "", priority := "" })),
    (quietEnv "id-2" 2000, .get "id-1") ]

/-- A task is created and read, nothing failing. -/
def quietReads : List (Env × Request) :=
  [ (quietEnv "id-1" 1000,
      .create (some { title := "Test", description := "", priority := "" })),
    (quietEnv "id-2" 2000, .get "id-1") ]

/-! ## Validation lemmas -/

theorem contains_iff_mem (l : List String) (x : String) : contains l x = true ↔ x ∈ l := by
  induction l with
  | nil => simp [contains]
  | cons a t ih =>
    by_cases h : a = x
    · simp [contains, h]
    · have h2 : ¬ x = a := fun e => h e.symm
      simp [contains, h, h2, ih]

theorem contains_validPriorities (p : String) :
    contains ValidPriorities p = true ↔ (p = "low" ∨ p = "medium" ∨ p = "high") := by
  rw [contains_iff_mem]
  simp [ValidPriorities]

theorem medium_ne_empty : ("medium" : String) ≠ "" := by decide

theorem validate_of_title_empty (r : CreateTaskRequest) (h : r.title = "") :
    Validate r = ("title is required", r) := by
  simp [Validate, h]

theorem validate_of_priority_empty (r : CreateTaskRequest) (h : r.title ≠ "")
    (hp : r.priority = "") : Validate r = ("", { r with priority := "medium" }) := by
  have hc : contains ValidPriorities "medium" = true := by decide
  simp [Validate, h, hp, hc]

theorem validate_of_priority_valid (r : CreateTaskRequest) (h : r.title ≠ "")
    (hp : r.priority ≠ "") (hv : contains ValidPriorities r.priority = true) :
    Validate r = ("", r) := by
  simp [Validate, h, hp, hv]

theorem validate_of_priority_invalid (r : CreateTaskRequest) (h : r.title ≠ "")
    (hp : r.priority ≠ "") (hv : contains ValidPriorities r.priority = false) :
    Validate r = ("priority must be low, medium, or high", r) := by
  simp [Validate, h, hp, hv]

/-! ## Claims on `Validate` -/

/-- C1: a request with a non-empty title and a priority among low, medium,
high or empty is accepted (empty message), leaves with a priority among low,
medium, high, and leaves with medium when it came with the empty priority. -/
theorem validate_accepts (r : CreateTaskRequest) (ht : r.title ≠ "")
    (hp : r.priority = "low" ∨ r.priority = "medium" ∨ r.priority = "high" ∨ r.priority = "") :
    (Validate r).1 = "" ∧
    ((Validate r).2.priority = "low" ∨ (Validate r).2.priority = "medium" ∨
      (Validate r).2.priority = "high") ∧
    (r.priority = "" → (Validate r).2.priority = "medium") ∧
    (r.priority ≠ "" → (Validate r).2.priority = r.priority) := by
  by_cases he : r.priority = ""
  · rw [validate_of_priority_empty r ht he]
    simp [he]
  · have hv : contains ValidPriorities r.priority = true := by
      rw [contains_validPriorities]
      rcases hp with h | h | h | h
      · exact Or.inl h
      · exact Or.inr (Or.inl h)
      · exact Or.inr (Or.inr h)
      · exact absurd h he
    rw [validate_of_priority_valid r ht he hv]
    refine ⟨rfl, ?_, fun h => absurd h he, fun _ => rfl⟩
    exact (contains_validPriorities _).1 hv

theorem validate_accepts_witness :
    (Validate { title := "Test", description := "", priority := "" }).1 = "" ∧
    (Validate { title := "Test", description := "", priority := "" }).2.priority = "medium" :=
  have h := validate_accepts { title := "Test", description := "", priority := "" }
    (by decide) (by decide)
  ⟨h.1, h.2.2.1 rfl⟩

/-- C2: a request with the empty title is rejected with exactly the message
`title is required`, whatever its description and priority. -/
theorem validate_title_required (description priority : String) :
    (Validate { title := "", description := description, priority := priority }).1
      = "title is required" := by
  rw [validate_of_title_empty _ rfl]

/-- C3 as stated fails: with the empty title, an unknown priority is not
reported; the message is the one about the title. -/
theorem validate_bad_priority_counterexample :
    ¬ (∀ r : CreateTaskRequest,
        r.priority ≠ "low" → r.priority ≠ "medium" → r.priority ≠ "high" → r.priority ≠ "" →
        (Validate r).1 = "priority must be low, medium, or high") := by
  intro h
  have h1 := h { title := "", description := "", priority := "urgent" }
    (by decide) (by decide) (by decide) (by decide)
  rw [validate_of_title_empty _ rfl] at h1
  exact absurd h1 (by decide)

/-- C3 amended: a request with a non-empty title whose priority is neither
low, medium, high nor empty is rejected with exactly the message
`priority must be low, medium, or high`. -/
theorem validate_bad_priority (r : CreateTaskRequest) (ht : r.title ≠ "")
    (h1 : r.priority ≠ "low") (h2 : r.priority ≠ "medium") (h3 : r.priority ≠ "high")
    (h4 : r.priority ≠ "") :
    (Validate r).1 = "priority must be low, medium, or high" := by
  have hv : contains ValidPriorities r.priority = false := by
    rw [Bool.eq_false_iff, Ne, contains_validPriorities]
    rintro (h | h | h)
    · exact h1 h
    · exact h2 h
    · exact h3 h
  rw [validate_of_priority_invalid r ht h4 hv]

theorem validate_bad_priority_witness :
    (Validate { title := "Test", description := "", priority := "urgent" }).1
      = "priority must be low, medium, or high" :=
  validate_bad_priority { title := "Test", description := "", priority := "urgent" }
    (by decide) (by decide) (by decide) (by decide) (by decide)

/-- C10: Validate never changes title or description; the priority changes
only from empty to medium and only under a non-empty title; a rejected
request is left exactly as it was; a second call returns the same message
and changes nothing further. -/
theorem validate_frame (r : CreateTaskRequest) :
    (Validate r).2.title = r.title ∧
    (Validate r).2.description = r.description ∧
    ((Validate r).2.priority = r.priority ∨
      (r.title ≠ "" ∧ r.priority = "" ∧ (Validate r).2.priority = "medium")) ∧
    ((Validate r).1 ≠ "" → (Validate r).2 = r) ∧
    (Validate (Validate r).2).1 = (Validate r).1 ∧
    (Validate (Validate r).2).2 = (Validate r).2 := by
  by_cases ht : r.title = ""
  · rw [validate_of_title_empty r ht]
    simp [validate_of_title_empty r ht]
  · by_cases he : r.priority = ""
    · rw [validate_of_priority_empty r ht he]
      have hm : contains ValidPriorities "medium" = true := by decide
      have h2 : Validate { r with priority := "medium" } = ("", { r with priority := "medium" }) :=
        validate_of_priority_valid _ ht medium_ne_empty hm
      simp [h2, ht, he]
    · cases hv : contains ValidPriorities r.priority
      · rw [validate_of_priority_invalid r ht he hv]
        simp [validate_of_priority_invalid r ht he hv]
      · rw [validate_of_priority_valid r ht he hv]
        simp [validate_of_priority_valid r ht he hv]

/-! ## Store lemmas -/

theorem get_none_eq (s : PostgresStore) (id : String) :
    PostgresStore.Get s none id =
      match s.find? (fun t => decide (t.id = id)) with
      | none => .error .errNoRows
      | some t => .ok t := rfl

theorem get_fault (s : PostgresStore) (m id : String) :
    PostgresStore.Get s (some m) id = .error (.other m) := rfl

theorem get_ok_iff (s : PostgresStore) (fault : Option String) (id : String) (t : Task) :
    PostgresStore.Get s fault id = .ok t ↔
      fault = none ∧ s.find? (fun r => decide (r.id = id)) = some t := by
  cases fault with
  | some m => simp [PostgresStore.Get]
  | none =>
    rw [get_none_eq]
    cases h : s.find? (fun r => decide (r.id = id)) <;> simp

theorem get_ok_id (s : PostgresStore) (fault : Option String) (id : String) (t : Task)
    (h : PostgresStore.Get s fault id = .ok t) : t.id = id := by
  have h1 := ((get_ok_iff s fault id t).1 h).2
  simpa using List.find?_some h1

theorem get_ok_mem (s : PostgresStore) (fault : Option String) (id : String) (t : Task)
    (h : PostgresStore.Get s fault id = .ok t) : t ∈ s :=
  List.mem_of_find?_eq_some ((get_ok_iff s fault id t).1 h).2

theorem update_eq_of_get (s : PostgresStore) (id : String) (req : UpdateTaskRequest)
    (now : Nat) (gf ef : Option String) (stored : Task)
    (hg : PostgresStore.Get s gf id = .ok stored) :
    PostgresStore.Update s id req now gf ef =
      match ef with
      | some m => .error (.other m)
      | none =>
        .ok ({ id := stored.id
               title := req.title.getD stored.title
               description := req.description.getD stored.description
               status := req.status.getD stored.status
               priority := req.priority.getD stored.priority
               createdAt := stored.createdAt
               updatedAt := now },
             s.map (fun r =>
               if r.id = id then
                 { r with
                   title := req.title.getD stored.title
                   description := req.description.getD stored.description
                   status := req.status.getD stored.status
                   priority := req.priority.getD stored.priority
                   updatedAt := timestamptz now }
               else r)) := by
  obtain ⟨rt, rd, rs, rp⟩ := req
  unfold PostgresStore.Update
  rw [hg]
  cases ef <;> cases rt <;> cases rd <;> cases rs <;> cases rp <;> rfl

theorem update_error_of_get (s : PostgresStore) (id : String) (req : UpdateTaskRequest)
    (now : Nat) (gf ef : Option String) (err : StoreError)
    (hg : PostgresStore.Get s gf id = .error err) :
    PostgresStore.Update s id req now gf ef = .error err := by
  unfold PostgresStore.Update
  rw [hg]

theorem find_map_same_id (s : PostgresStore) (id : String) (f : Task → Task)
    (hf : ∀ r, (f r).id = r.id) :
    (s.map f).find? (fun r => decide (r.id = id)) =
      (s.find? (fun r => decide (r.id = id))).map f := by
  induction s with
  | nil => rfl
  | cons a t ih =>
    by_cases h : a.id = id
    · simp [List.find?, hf, h]
    · simp [List.find?, hf, h, ih]

theorem find_map_other_id (s : PostgresStore) (id other : String) (f : Task → Task)
    (hf : ∀ r, (f r).id = r.id) (hne : other ≠ id) :
    (s.map (fun r => if r.id = id then f r else r)).find? (fun r => decide (r.id = other)) =
      s.find? (fun r => decide (r.id = other)) := by
  induction s with
  | nil => rfl
  | cons a t ih =>
    rw [List.map_cons, List.find?_cons, List.find?_cons, ih]
    by_cases h : a.id = id
    · have h4 : ¬ id = other := fun e => hne e.symm
      simp [h, hf, h4]
    · by_cases h3 : a.id = other
      · have h5 : ¬ other = id := hne
        simp [h, h3, h5]
      · simp [h, h3]

theorem update_ok_spec (s : PostgresStore) (id : String) (req : UpdateTaskRequest)
    (now : Nat) (gf ef : Option String) (t : Task) (s1 : PostgresStore)
    (h : PostgresStore.Update s id req now gf ef = .ok (t, s1)) :
    ∃ stored, PostgresStore.Get s none id = .ok stored ∧ gf = none ∧ ef = none ∧
      t = { id := stored.id
            title := req.title.getD stored.title
            description := req.description.getD stored.description
            status := req.status.getD stored.status
            priority := req.priority.getD stored.priority
            createdAt := stored.createdAt
            updatedAt := now } ∧
      PostgresStore.Get s1 none id = .ok { t with updatedAt := timestamptz now } ∧
      (∀ other, other ≠ id → ∀ fault,
        PostgresStore.Get s1 fault other = PostgresStore.Get s fault other) := by
  cases hg : PostgresStore.Get s gf id with
  | error err =>
    rw [update_error_of_get s id req now gf ef err hg] at h
    cases h
  | ok stored =>
    have hgf : gf = none := ((get_ok_iff s gf id stored).1 hg).1
    subst hgf
    rw [update_eq_of_get s id req now none ef stored hg] at h
    cases ef with
    | some m => cases h
    | none =>
      simp only [Except.ok.injEq, Prod.mk.injEq] at h
      obtain ⟨ht, hs1⟩ := h
      have hid : stored.id = id := get_ok_id s none id stored hg
      have hfind := ((get_ok_iff s none id stored).1 hg).2
      refine ⟨stored, hg, rfl, rfl, ht.symm, ?_, ?_⟩
      · rw [get_none_eq, ← hs1, find_map_same_id s id _ (by intro r; split <;> rfl), hfind]
        simp [hid, ← ht]
      · intro other hne fault
        cases fault with
        | some m => rfl
        | none =>
          rw [get_none_eq, get_none_eq, ← hs1,
            find_map_other_id s id other
              (fun r => { r with
                title := req.title.getD stored.title
                description := req.description.getD stored.description
                status := req.status.getD stored.status
                priority := req.priority.getD stored.priority
                updatedAt := timestamptz now }) (fun _ => rfl) hne]

/-! ## Claims on the store -/

/-- C5 as stated fails, twice. The row persisted does not hold the clock
reading: with the reading 1500 the task returned has updatedAt 1500 while the
row read back has updatedAt 1000, the whole microseconds, which is what the
stored task had. And updatedAt need not advance: with the reading 0 the task
returned has updatedAt 0, before the stored updatedAt and before createdAt. -/
theorem update_stamp_counterexample :
    (∃ t s1 row,
      PostgresStore.Update [sampleTask] "a"
        { title := none, description := none, status := some "done", priority := none }
        1500 none none = .ok (t, s1) ∧
      PostgresStore.Get s1 none "a" = .ok row ∧
      t.updatedAt = 1500 ∧ row.updatedAt = 1000 ∧ row.updatedAt = sampleTask.updatedAt ∧
      row ≠ t) ∧
    (∃ t s1,
      PostgresStore.Update [sampleTask] "a"
        { title := none, description := none, status := some "done", priority := none }
        0 none none = .ok (t, s1) ∧
      t.updatedAt < sampleTask.updatedAt ∧ t.updatedAt < t.createdAt) :=
  ⟨⟨_, _, _, rfl, rfl, rfl, rfl, rfl, by decide⟩, ⟨_, _, rfl, by decide, by decide⟩⟩

/-- C5 amended: for a stored task and any update request, `Update` (when the
two statements run without a driver error) returns a task; in the task it
returns each of title, description, status and priority is the request's
value when present and the stored one when absent, id and createdAt are the
stored ones, and updatedAt is the clock reading; the row persisted under the
id is that task with updatedAt cut to the whole microseconds of the reading.
With only status set, title, description and priority are the stored ones and
updatedAt is the clock reading, later than the stored one or not. -/
theorem update_merges_fields (s : PostgresStore) (id : String) (req : UpdateTaskRequest)
    (now : Nat) (stored : Task) (hs : PostgresStore.Get s none id = .ok stored) :
    (∃ t s1, PostgresStore.Update s id req now none none = .ok (t, s1)) ∧
    ∀ gf ef t s1, PostgresStore.Update s id req now gf ef = .ok (t, s1) →
      t.title = req.title.getD stored.title ∧
      t.description = req.description.getD stored.description ∧
      t.status = req.status.getD stored.status ∧
      t.priority = req.priority.getD stored.priority ∧
      t.id = stored.id ∧ t.createdAt = stored.createdAt ∧ t.updatedAt = now ∧
      PostgresStore.Get s1 none id = .ok { t with updatedAt := timestamptz now } ∧
      (req.title = none → req.description = none → req.priority = none →
        t.title = stored.title ∧ t.description = stored.description ∧
        t.priority = stored.priority ∧ t.status = req.status.getD stored.status ∧
        t.updatedAt = now) := by
  constructor
  · rw [update_eq_of_get s id req now none none stored hs]
    exact ⟨_, _, rfl⟩
  · intro gf ef t s1 h
    obtain ⟨st2, hg2, -, -, ht, hget, -⟩ := update_ok_spec s id req now gf ef t s1 h
    rw [hs] at hg2
    cases hg2
    subst ht
    refine ⟨rfl, rfl, rfl, rfl, rfl, rfl, rfl, hget, ?_⟩
    intro h1 h2 h3
    simp [h1, h2, h3]

theorem update_merges_fields_witness :
    PostgresStore.Get [sampleTask] none "a" = .ok sampleTask ∧
    ∃ t s1, PostgresStore.Update [sampleTask] "a"
      { title := none, description := none, status := some "done", priority := none }
      1500 none none = .ok (t, s1) :=
  ⟨rfl, (update_merges_fields [sampleTask] "a"
    { title := none, description := none, status := some "done", priority := none }
    1500 sampleTask rfl).1⟩

theorem create_ok_spec (s : PostgresStore) (uuid : String) (now1 now2 : Nat)
    (fault : Option String) (req : CreateTaskRequest) (t : Task) (s1 : PostgresStore)
    (h : PostgresStore.Create s uuid now1 now2 fault req = .ok (t, s1)) :
    fault = none ∧
    t = { id := uuid, title := req.title, description := req.description, status := "todo"
          priority := req.priority, createdAt := now1, updatedAt := now2 } ∧
    (∀ r ∈ s, r.id ≠ uuid) ∧
    s1 = s ++ [{ t with
      createdAt := timestamptz t.createdAt
      updatedAt := timestamptz t.updatedAt }] := by
  cases fault with
  | some m => cases h
  | none =>
    by_cases hany : s.any (fun r => decide (r.id = uuid)) = true
    · simp [PostgresStore.Create, hany] at h
    · simp only [PostgresStore.Create, hany, Bool.false_eq_true, if_false, Except.ok.injEq,
        Prod.mk.injEq] at h
      obtain ⟨ht, hs1⟩ := h
      refine ⟨rfl, ht.symm, ?_, ?_⟩
      · intro r hr he
        exact hany (List.any_eq_true.2 ⟨r, hr, by simpa using he⟩)
      · subst ht
        exact hs1.symm

theorem create_ok_of_fresh (s : PostgresStore) (uuid : String) (now1 now2 : Nat)
    (req : CreateTaskRequest) (hfresh : ∀ r ∈ s, r.id ≠ uuid) :
    PostgresStore.Create s uuid now1 now2 none req =
      .ok ({ id := uuid, title := req.title, description := req.description, status := "todo"
             priority := req.priority, createdAt := now1, updatedAt := now2 },
           s ++ [{ id := uuid, title := req.title, description := req.description
                   status := "todo", priority := req.priority
                   createdAt := timestamptz now1, updatedAt := timestamptz now2 }]) := by
  have hany : ¬ s.any (fun r => decide (r.id = uuid)) = true := by
    intro h
    obtain ⟨r, hr, he⟩ := List.any_eq_true.1 h
    exact hfresh r hr (by simpa using he)
  simp [PostgresStore.Create, hany]

/-- C7, evaluated where it fails: `Create` reads the clock once for createdAt
and once more for updatedAt; when the clock reads 100 and then 101 the
insert succeeds and the returned task has createdAt 100 and updatedAt 101. -/
theorem create_timestamps_differ :
    ∃ t s1, PostgresStore.Create [] "id-1" 100 101 none
        { title := "Buy milk", description := "", priority := "medium" } = .ok (t, s1) ∧
      t.title = "Buy milk" ∧ t.status = "todo" ∧ t.priority = "medium" ∧
      t.createdAt = 100 ∧ t.updatedAt = 101 ∧ t.createdAt ≠ t.updatedAt :=
  ⟨_, _, rfl, rfl, rfl, rfl, rfl, rfl, by decide⟩

theorem delete_fault (s : PostgresStore) (m id : String) :
    PostgresStore.Delete s (some m) id = .error (.other m) := rfl

theorem delete_of_absent (s : PostgresStore) (id : String) (habs : ∀ r ∈ s, r.id ≠ id) :
    PostgresStore.Delete s none id = .error (.other "task not found") := by
  have hc : s.countP (fun r => decide (r.id = id)) = 0 := by
    rw [List.countP_eq_zero]
    intro r hr
    simpa using habs r hr
  simp [PostgresStore.Delete, hc]

theorem delete_of_present (s : PostgresStore) (id : String) (hpres : ∃ r ∈ s, r.id = id) :
    PostgresStore.Delete s none id = .ok (s.filter (fun r => !decide (r.id = id))) := by
  have hc : ¬ s.countP (fun r => decide (r.id = id)) = 0 := by
    rw [List.countP_eq_zero]
    intro h
    obtain ⟨r, hr, he⟩ := hpres
    exact h r hr (by simpa using he)
  simp [PostgresStore.Delete, hc]

theorem delete_ok_spec (s : PostgresStore) (fault : Option String) (id : String)
    (s1 : PostgresStore) (h : PostgresStore.Delete s fault id = .ok s1) :
    fault = none ∧ (∃ r ∈ s, r.id = id) ∧ s1 = s.filter (fun r => !decide (r.id = id)) := by
  cases fault with
  | some m => cases h
  | none =>
    by_cases hpres : ∃ r ∈ s, r.id = id
    · rw [delete_of_present s id hpres] at h
      cases h
      exact ⟨rfl, hpres, rfl⟩
    · rw [delete_of_absent s id (fun r hr he => hpres ⟨r, hr, he⟩)] at h
      cases h

theorem find_filter_other_id (s : PostgresStore) (id other : String) (hne : other ≠ id) :
    (s.filter (fun r => !decide (r.id = id))).find? (fun r => decide (r.id = other)) =
      s.find? (fun r => decide (r.id = other)) := by
  induction s with
  | nil => rfl
  | cons a t ih =>
    by_cases h : a.id = id
    · have h3 : ¬ a.id = other := fun e => hne (e.symm.trans h)
      have h4 : ¬ id = other := fun e => hne e.symm
      simp [List.filter_cons, List.find?_cons, h, h4, ih]
    · by_cases h3 : a.id = other
      · have h5 : ¬ other = id := hne
        simp [List.filter_cons, List.find?_cons, h, h3, h5]
      · simp [List.filter_cons, List.find?_cons, h, h3, ih]

theorem get_after_delete_other (s : PostgresStore) (id other : String) (hne : other ≠ id)
    (fault : Option String) :
    PostgresStore.Get (s.filter (fun r => !decide (r.id = id))) fault other =
      PostgresStore.Get s fault other := by
  cases fault with
  | some m => rfl
  | none => rw [get_none_eq, get_none_eq, find_filter_other_id s id other hne]

theorem list_none_mem (s : PostgresStore) :
    ∃ ts, PostgresStore.List s none = .ok ts ∧ ∀ t, t ∈ ts ↔ t ∈ s :=
  ⟨s.insertionSort createdDesc, rfl, fun _ => (List.perm_insertionSort createdDesc s).mem_iff⟩

theorem handler_delete_of_absent (h : TaskHandler) (env : Env) (st : State) (id : String)
    (habs : ∀ r ∈ st.store, r.id ≠ id) :
    (TaskHandler.Delete h env st id).2 = st ∧
    (env.dbFault1 = none →
      TaskHandler.Delete h env st id = (writeError 404 "task not found", st)) := by
  cases hf : env.dbFault1 with
  | some m =>
    by_cases hm : m = "task not found" <;>
      simp [TaskHandler.Delete, hf, delete_fault, StoreError.Error, hm]
  | none =>
    simp [TaskHandler.Delete, hf, delete_of_absent st.store id habs, StoreError.Error]

/-- C8 as stated fails: when the `DELETE` statement itself fails (here the
connection is refused), deleting an id that is not stored does not fail with
`task not found`, and the handler answers 500. -/
theorem delete_absent_counterexample :
    PostgresStore.Delete [] (some "connection refused") "x"
      = .error (.other "connection refused") ∧
    (StoreError.other "connection refused").Error ≠ "task not found" ∧
    (TaskHandler.Delete { cache := true, producer := true } dbDownEnv emptyState "x").1
      = writeError 500 "failed to delete task" :=
  ⟨rfl, by decide, by decide⟩

/-- C8 amended: when the `DELETE` statement runs without a driver error, a
Delete of a stored id succeeds, after which List holds no task with that id
and exactly the other tasks, unchanged, and a second Delete fails with
`task not found`, which the handler reports as 404 with that error body; a
Delete of an id that is not stored fails with `task not found`. Whatever the
driver does, a Delete of an id that is not stored fails and the handler
leaves the state unchanged. -/
theorem delete_spec (s : PostgresStore) (id : String) :
    ((∃ r ∈ s, r.id = id) → ∃ s1, PostgresStore.Delete s none id = .ok s1) ∧
    (∀ fault s1, PostgresStore.Delete s fault id = .ok s1 →
      s1 = s.filter (fun r => !decide (r.id = id)) ∧
      (∃ ts, PostgresStore.List s1 none = .ok ts ∧ (∀ t ∈ ts, t.id ≠ id) ∧
        ∀ t, t.id ≠ id → (t ∈ ts ↔ t ∈ s)) ∧
      (∀ other, other ≠ id → PostgresStore.Get s1 none other = PostgresStore.Get s none other) ∧
      PostgresStore.Get s1 none id = .error .errNoRows ∧
      PostgresStore.Delete s1 none id = .error (.other "task not found") ∧
      ∀ (h : TaskHandler) (env : Env) (st : State), st.store = s1 → env.dbFault1 = none →
        TaskHandler.Delete h env st id = (writeError 404 "task not found", st)) ∧
    ((∀ r ∈ s, r.id ≠ id) →
      PostgresStore.Delete s none id = .error (.other "task not found") ∧
      (∀ fault, ∃ err, PostgresStore.Delete s fault id = .error err) ∧
      ∀ (h : TaskHandler) (env : Env) (st : State), st.store = s →
        (TaskHandler.Delete h env st id).2 = st ∧
        (env.dbFault1 = none →
          TaskHandler.Delete h env st id = (writeError 404 "task not found", st))) := by
  refine ⟨fun hpres => ⟨_, delete_of_present s id hpres⟩, ?_, ?_⟩
  · intro fault s1 hdel
    obtain ⟨-, -, hs1⟩ := delete_ok_spec s fault id s1 hdel
    have habs : ∀ r ∈ s1, r.id ≠ id := by
      intro r hr
      rw [hs1, List.mem_filter] at hr
      simpa using hr.2
    refine ⟨hs1, ?_, ?_, ?_, delete_of_absent s1 id habs, ?_⟩
    · obtain ⟨ts, hts, hmem⟩ := list_none_mem s1
      refine ⟨ts, hts, fun t ht => habs t ((hmem t).1 ht), ?_⟩
      intro t hne
      rw [hmem t, hs1, List.mem_filter]
      simp [hne]
    · intro other hne
      rw [hs1]
      exact get_after_delete_other s id other hne none
    · rw [get_none_eq]
      have hnone : s1.find? (fun r => decide (r.id = id)) = none := by
        rw [List.find?_eq_none]
        intro r hr
        simpa using habs r hr
      rw [hnone]
    · intro h env st hst hf
      exact (handler_delete_of_absent h env st id (hst ▸ habs)).2 hf
  · intro habs
    refine ⟨delete_of_absent s id habs, ?_, ?_⟩
    · intro fault
      cases fault with
      | some m => exact ⟨_, rfl⟩
      | none => exact ⟨_, delete_of_absent s id habs⟩
    · intro h env st hst
      exact handler_delete_of_absent h env st id (hst ▸ habs)

theorem delete_spec_witness :
    (∃ r ∈ [sampleTask], r.id = "a") ∧
    ∃ s1, PostgresStore.Delete [sampleTask] none "a" = .ok s1 :=
  ⟨⟨sampleTask, by simp, rfl⟩,
    (delete_spec [sampleTask] "a").1 ⟨sampleTask, by simp, rfl⟩⟩

/-! ## Claims on the handler -/

theorem handler_create_of_error (h : TaskHandler) (env : Env) (st : State)
    (req0 : CreateTaskRequest) (err : StoreError) (hv : (Validate req0).1 = "")
    (he : PostgresStore.Create st.store env.uuid env.now1 env.now2 env.dbFault1
      (Validate req0).2 = .error err) :
    TaskHandler.Create h env st (some req0) = (writeError 500 "failed to create task", st) := by
  simp [TaskHandler.Create, hv, he]

theorem handler_update_of_error (h : TaskHandler) (env : Env) (st : State) (id : String)
    (req : UpdateTaskRequest) (err : StoreError)
    (he : PostgresStore.Update st.store id req env.now1 env.dbFault1 env.dbFault2 = .error err) :
    TaskHandler.Update h env st id (some req) =
      (match err with
        | .errNoRows => writeError 404 "task not found"
        | .other _ => writeError 500 "failed to update task", st) := by
  cases err <;> simp [TaskHandler.Update, he]

theorem handler_delete_of_error (h : TaskHandler) (env : Env) (st : State) (id : String)
    (err : StoreError) (he : PostgresStore.Delete st.store env.dbFault1 id = .error err) :
    TaskHandler.Delete h env st id =
      (if err.Error = "task not found" then writeError 404 "task not found"
        else writeError 500 "failed to delete task", st) := by
  by_cases hm : err.Error = "task not found" <;> simp [TaskHandler.Delete, he, hm]

/-- C4: in Create, Update and Delete, when the call to the store returns an
error, the state after the request (cache contents, event log, and the table
too) is the state before it, and the response status is 404 or 500 (500 for
Create), hence no 2xx status. -/
theorem store_failure_is_surfaced (h : TaskHandler) (env : Env) (st : State) :
    (∀ (req0 : CreateTaskRequest) (err : StoreError), (Validate req0).1 = "" →
      PostgresStore.Create st.store env.uuid env.now1 env.now2 env.dbFault1
        (Validate req0).2 = .error err →
      (TaskHandler.Create h env st (some req0)).2.cache = st.cache ∧
      (TaskHandler.Create h env st (some req0)).2.events = st.events ∧
      (TaskHandler.Create h env st (some req0)).2.store = st.store ∧
      (TaskHandler.Create h env st (some req0)).1.status = 500) ∧
    (∀ (id : String) (req : UpdateTaskRequest) (err : StoreError),
      PostgresStore.Update st.store id req env.now1 env.dbFault1 env.dbFault2 = .error err →
      (TaskHandler.Update h env st id (some req)).2.cache = st.cache ∧
      (TaskHandler.Update h env st id (some req)).2.events = st.events ∧
      (TaskHandler.Update h env st id (some req)).2.store = st.store ∧
      ((TaskHandler.Update h env st id (some req)).1.status = 404 ∨
        (TaskHandler.Update h env st id (some req)).1.status = 500)) ∧
    (∀ (id : String) (err : StoreError),
      PostgresStore.Delete st.store env.dbFault1 id = .error err →
      (TaskHandler.Delete h env st id).2.cache = st.cache ∧
      (TaskHandler.Delete h env st id).2.events = st.events ∧
      (TaskHandler.Delete h env st id).2.store = st.store ∧
      ((TaskHandler.Delete h env st id).1.status = 404 ∨
        (TaskHandler.Delete h env st id).1.status = 500)) := by
  refine ⟨?_, ?_, ?_⟩
  · intro req0 err hv he
    rw [handler_create_of_error h env st req0 err hv he]
    exact ⟨rfl, rfl, rfl, rfl⟩
  · intro id req err he
    rw [handler_update_of_error h env st id req err he]
    cases err
    · exact ⟨rfl, rfl, rfl, Or.inl rfl⟩
    · exact ⟨rfl, rfl, rfl, Or.inr rfl⟩
  · intro id err he
    rw [handler_delete_of_error h env st id err he]
    by_cases hm : err.Error = "task not found"
    · rw [if_pos hm]
      exact ⟨rfl, rfl, rfl, Or.inl rfl⟩
    · rw [if_neg hm]
      exact ⟨rfl, rfl, rfl, Or.inr rfl⟩

theorem store_failure_is_surfaced_witness :
    PostgresStore.Delete emptyState.store dbDownEnv.dbFault1 "x"
      = .error (.other "connection refused") ∧
    (TaskHandler.Delete { cache := true, producer := true } dbDownEnv emptyState "x").2.cache
      = emptyState.cache ∧
    (TaskHandler.Delete { cache := true, producer := true } dbDownEnv emptyState "x").2.events
      = emptyState.events :=
  have hw := (store_failure_is_surfaced { cache := true, producer := true } dbDownEnv
    emptyState).2.2 "x" (.other "connection refused") rfl
  ⟨rfl, hw.1, hw.2.1⟩

/-- C6, evaluated where it fails: on a fresh deployment, a Create with title
`Test` followed by an Update of that task with the empty title and the
priority `urgent` is answered 201 then 200 and leaves a stored task with the
empty title and the priority `urgent`: Update runs no validation. -/
theorem update_stores_invalid_task :
    run { cache := true, producer := true }
      [ (quietEnv "id-1" 1000,
          .create (some { title := "Test", description := "", priority := "" })),
        (quietEnv "id-2" 2000,
          .update "id-1" (some { title := some "", description := none, status := none
                                 priority := some "urgent" })) ]
      emptyState
    = ([ { status := 201
           body := .task { id := "id-1", title := "Test", description := "", status := "todo"
                           priority := "medium", createdAt := 1000, updatedAt := 1000 } },
         { status := 200
           body := .task { id := "id-1", title := "", description := "", status := "todo"
                           priority := "urgent", createdAt := 1000, updatedAt := 2000 } } ],
       { store := [ { id := "id-1", title := "", description := "", status := "todo"
                      priority := "urgent", createdAt := 1000, updatedAt := 2000 } ]
         cache := []
         events :=
           [ { type := "task.created", taskID := "id-1", timestamp := 1000
               data := some { id := "id-1", title := "Test", description := "", status := "todo"
                              priority := "medium", createdAt := 1000, updatedAt := 1000 } },
             { type := "task.updated", taskID := "id-1", timestamp := 2000
               data := some { id := "id-1", title := "", description := "", status := "todo"
                              priority := "urgent", createdAt := 1000, updatedAt := 2000 } } ] }) := by
  decide

/-! ## Cache lemmas -/

theorem taskKey_injective (a b : String) (h : taskKey a = taskKey b) : a = b := by
  have hd := congrArg String.data h
  simp only [taskKey, String.data_append] at hd
  exact String.ext (List.append_cancel_left hd)

theorem lookup_filter_key (c : RedisCache) (q : String → Bool) (k : String) :
    (c.filter (fun kv => q kv.1)).lookup k = if q k = true then c.lookup k else none := by
  induction c with
  | nil => simp
  | cons a t ih =>
    obtain ⟨ka, va⟩ := a
    by_cases hk : k = ka
    · subst hk
      cases hq : q k <;> simp [List.filter_cons, List.lookup_cons, hq, ih]
    · have hb : (k == ka) = false := by simpa using hk
      cases hq : q ka <;> simp [List.filter_cons, List.lookup_cons, hq, ih, hb]

theorem lookup_redisDel (c : RedisCache) (key k : String) :
    (redisDel c key).lookup k = if k = key then none else c.lookup k := by
  have h := lookup_filter_key c (fun x => !decide (x = key)) k
  simp only [redisDel]
  rw [h]
  by_cases hk : k = key <;> simp [hk]

theorem lookup_redisExpire (c : RedisCache) (keys : List String) (k : String) (t : Task)
    (h : (redisExpire c keys).lookup k = some t) : c.lookup k = some t := by
  have h2 := lookup_filter_key c (fun x => !keys.contains x) k
  simp only [redisExpire] at h
  rw [h2] at h
  split at h
  · exact h
  · cases h

theorem coherent_nil (s : PostgresStore) : Coherent [] s := by
  intro id t h
  cases h

theorem coherent_expire (c : RedisCache) (s : PostgresStore) (keys : List String)
    (h : Coherent c s) : Coherent (redisExpire c keys) s :=
  fun id t hl => h id t (lookup_redisExpire c keys _ t hl)

theorem coherent_redisDel (c : RedisCache) (s : PostgresStore) (key : String)
    (h : Coherent c s) : Coherent (redisDel c key) s := by
  intro id t hl
  rw [lookup_redisDel] at hl
  split at hl
  · cases hl
  · exact h id t hl

theorem coherent_invalidate (c : RedisCache) (s : PostgresStore) (fails : Bool)
    (h : Coherent c s) : Coherent (RedisCache.InvalidateList c fails) s := by
  unfold RedisCache.InvalidateList
  split
  · exact h
  · exact coherent_redisDel c s _ h

theorem coherent_set (c : RedisCache) (s : PostgresStore) (fails : Bool) (id : String)
    (t : Task) (h : Coherent c s) (hg : PostgresStore.Get s none id = .ok t) :
    Coherent (RedisCache.Set c fails t) s := by
  unfold RedisCache.Set
  split
  · exact h
  · intro id2 t2 hl
    have hid : t.id = id := get_ok_id s none id t hg
    by_cases hk : taskKey id2 = taskKey t.id
    · have h2 : id2 = t.id := taskKey_injective _ _ hk
      simp [List.lookup_cons, hk] at hl
      rw [← hl, h2, hid]
      exact hg
    · have hb : (taskKey id2 == taskKey t.id) = false := by simpa using hk
      simp only [List.lookup_cons, hb] at hl
      exact coherent_redisDel c s _ h id2 t2 hl

theorem coherent_evict (c : RedisCache) (s s1 : PostgresStore) (id : String)
    (h : Coherent c s)
    (hother : ∀ other, other ≠ id → PostgresStore.Get s1 none other = PostgresStore.Get s none other) :
    Coherent (RedisCache.Delete c false id) s1 := by
  intro id2 t2 hl
  simp only [RedisCache.Delete, Bool.false_eq_true, if_false] at hl
  rw [lookup_redisDel] at hl
  split at hl
  · cases hl
  · rename_i hk
    have hne : id2 ≠ id := fun e => hk (by rw [e])
    rw [hother id2 hne]
    exact h id2 t2 hl

theorem get_append_of_ok (s : PostgresStore) (t r : Task) (id : String)
    (h : PostgresStore.Get s none id = .ok r) :
    PostgresStore.Get (s ++ [t]) none id = .ok r := by
  have hf := ((get_ok_iff s none id r).1 h).2
  rw [get_none_eq, List.find?_append, hf]
  rfl

theorem coherent_append (c : RedisCache) (s : PostgresStore) (t : Task)
    (h : Coherent c s) : Coherent c (s ++ [t]) :=
  fun id r hl => get_append_of_ok s t r id (h id r hl)

/-! ## The handler with and without the cache -/

theorem sim_get (p : Bool) (env : Env) (s : PostgresStore) (c1 c2 : RedisCache)
    (ev : List TaskEvent) (id : String) (hco : Coherent c1 s) (hf : env.dbFault1 = none) :
    SameOutcome
      (TaskHandler.Get { cache := true, producer := p } env
        { store := s, cache := c1, events := ev } id)
      (TaskHandler.Get { cache := false, producer := p } env
        { store := s, cache := c2, events := ev } id) := by
  cases hhit : RedisCache.Get c1 env.cacheGetFails id with
  | some t =>
    have hl : c1.lookup (taskKey id) = some t := by
      unfold RedisCache.Get at hhit
      split at hhit
      · cases hhit
      · exact hhit
    have hg : PostgresStore.Get s none id = .ok t := hco id t hl
    simp only [TaskHandler.Get, hhit, hf, hg, if_true, Bool.false_eq_true, if_false]
    exact ⟨rfl, rfl, rfl, hco⟩
  | none =>
    cases hg : PostgresStore.Get s none id with
    | error err =>
      cases err <;>
        simp only [TaskHandler.Get, hhit, hf, hg, if_true, Bool.false_eq_true, if_false] <;>
        exact ⟨rfl, rfl, rfl, hco⟩
    | ok t =>
      simp only [TaskHandler.Get, hhit, hf, hg, if_true, Bool.false_eq_true, if_false]
      exact ⟨rfl, rfl, rfl, coherent_set c1 s _ id t hco hg⟩

theorem sim_create (p : Bool) (env : Env) (s : PostgresStore) (c1 c2 : RedisCache)
    (ev : List TaskEvent) (body : Option CreateTaskRequest) (hco : Coherent c1 s) :
    SameOutcome
      (TaskHandler.Create { cache := true, producer := p } env
        { store := s, cache := c1, events := ev } body)
      (TaskHandler.Create { cache := false, producer := p } env
        { store := s, cache := c2, events := ev } body) := by
  cases body with
  | none => exact ⟨rfl, rfl, rfl, hco⟩
  | some req0 =>
    by_cases hv : (Validate req0).1 = ""
    · cases hc : PostgresStore.Create s env.uuid env.now1 env.now2 env.dbFault1 (Validate req0).2 with
      | error err =>
        simp only [TaskHandler.Create, hv, hc, ne_eq, not_true_eq_false, if_false]
        exact ⟨rfl, rfl, rfl, hco⟩
      | ok r =>
        obtain ⟨t, s1⟩ := r
        obtain ⟨-, -, -, hs1⟩ := create_ok_spec s env.uuid env.now1 env.now2 env.dbFault1 _ t s1 hc
        simp only [TaskHandler.Create, hv, hc, ne_eq, not_true_eq_false, if_false, if_true,
          Bool.false_eq_true]
        refine ⟨rfl, rfl, rfl, ?_⟩
        show Coherent (RedisCache.InvalidateList c1 env.cacheInvalidateFails) s1
        rw [hs1]
        exact coherent_append _ s _ (coherent_invalidate c1 s _ hco)
    · simp only [TaskHandler.Create, hv, ne_eq, not_false_eq_true, if_true]
      exact ⟨rfl, rfl, rfl, hco⟩

theorem sim_update (p : Bool) (env : Env) (s : PostgresStore) (c1 c2 : RedisCache)
    (ev : List TaskEvent) (id : String) (body : Option UpdateTaskRequest)
    (hco : Coherent c1 s) (hdel : env.cacheDelFails = false) :
    SameOutcome
      (TaskHandler.Update { cache := true, producer := p } env
        { store := s, cache := c1, events := ev } id body)
      (TaskHandler.Update { cache := false, producer := p } env
        { store := s, cache := c2, events := ev } id body) := by
  cases body with
  | none => exact ⟨rfl, rfl, rfl, hco⟩
  | some req =>
    cases hu : PostgresStore.Update s id req env.now1 env.dbFault1 env.dbFault2 with
    | error err =>
      cases err <;> simp only [TaskHandler.Update, hu] <;> exact ⟨rfl, rfl, rfl, hco⟩
    | ok r =>
      obtain ⟨t, s1⟩ := r
      obtain ⟨-, -, -, -, -, -, hother⟩ :=
        update_ok_spec s id req env.now1 env.dbFault1 env.dbFault2 t s1 hu
      simp only [TaskHandler.Update, hu, if_true, Bool.false_eq_true, if_false, hdel]
      refine ⟨rfl, rfl, rfl, ?_⟩
      exact coherent_invalidate _ s1 _
        (coherent_evict c1 s s1 id hco (fun other hne => hother other hne none))

theorem sim_delete (p : Bool) (env : Env) (s : PostgresStore) (c1 c2 : RedisCache)
    (ev : List TaskEvent) (id : String)
    (hco : Coherent c1 s) (hdel : env.cacheDelFails = false) :
    SameOutcome
      (TaskHandler.Delete { cache := true, producer := p } env
        { store := s, cache := c1, events := ev } id)
      (TaskHandler.Delete { cache := false, producer := p } env
        { store := s, cache := c2, events := ev } id) := by
  cases hd : PostgresStore.Delete s env.dbFault1 id with
  | error err =>
    by_cases hm : err.Error = "task not found" <;>
      simp only [TaskHandler.Delete, hd, hm, if_true, if_false] <;>
      exact ⟨rfl, rfl, rfl, hco⟩
  | ok s1 =>
    obtain ⟨-, -, hs1⟩ := delete_ok_spec s env.dbFault1 id s1 hd
    simp only [TaskHandler.Delete, hd, if_true, Bool.false_eq_true, if_false, hdel]
    refine ⟨rfl, rfl, rfl, ?_⟩
    refine coherent_invalidate _ s1 _ (coherent_evict c1 s s1 id hco ?_)
    intro other hne
    rw [hs1]
    exact get_after_delete_other s id other hne none

theorem sim_list (p : Bool) (env : Env) (s : PostgresStore) (c1 c2 : RedisCache)
    (ev : List TaskEvent) (hco : Coherent c1 s) :
    SameOutcome
      (TaskHandler.List { cache := true, producer := p } env
        { store := s, cache := c1, events := ev })
      (TaskHandler.List { cache := false, producer := p } env
        { store := s, cache := c2, events := ev }) := by
  cases hl : PostgresStore.List s env.dbFault1 with
  | error err => simp only [TaskHandler.List, hl]; exact ⟨rfl, rfl, rfl, hco⟩
  | ok ts => simp only [TaskHandler.List, hl]; exact ⟨rfl, rfl, rfl, hco⟩

theorem sim_serve (p : Bool) (env : Env) (req : Request) (st1 st2 : State)
    (hs : st1.store = st2.store) (he : st1.events = st2.events)
    (hco : Coherent st1.cache st1.store) (hdel : env.cacheDelFails = false)
    (hget : ∀ id, req = Request.get id → env.dbFault1 = none) :
    SameOutcome (serve { cache := true, producer := p } env req st1)
      (serve { cache := false, producer := p } env req st2) := by
  obtain ⟨s, c1, ev⟩ := st1
  obtain ⟨s2, c2, ev2⟩ := st2
  simp only at hs he hco
  subst hs he
  have hco2 : Coherent (redisExpire c1 env.expired) s := coherent_expire c1 s _ hco
  cases req with
  | list => exact sim_list p env s _ _ ev hco2
  | get id => exact sim_get p env s _ _ ev id hco2 (hget id rfl)
  | create body => exact sim_create p env s _ _ ev body hco2
  | update id body => exact sim_update p env s _ _ ev id body hco2 hdel
  | delete id => exact sim_delete p env s _ _ ev id hco2 hdel

theorem sim_run (p : Bool) (reqs : List (Env × Request)) :
    ∀ (st1 st2 : State), st1.store = st2.store → st1.events = st2.events →
      Coherent st1.cache st1.store → EvictionsHold reqs →
      (run { cache := true, producer := p } reqs st1).1
        = (run { cache := false, producer := p } reqs st2).1 ∧
      (run { cache := true, producer := p } reqs st1).2.store
        = (run { cache := false, producer := p } reqs st2).2.store ∧
      (run { cache := true, producer := p } reqs st1).2.events
        = (run { cache := false, producer := p } reqs st2).2.events ∧
      Coherent (run { cache := true, producer := p } reqs st1).2.cache
        (run { cache := true, producer := p } reqs st1).2.store := by
  induction reqs with
  | nil =>
    intro st1 st2 hs he hco _
    exact ⟨rfl, hs, he, hco⟩
  | cons q rest ih =>
    intro st1 st2 hs he hco hsafe
    obtain ⟨env, req⟩ := q
    have hq := hsafe (env, req) (List.mem_cons_self _ _)
    obtain ⟨h1, h2, h3, h4⟩ := sim_serve p env req st1 st2 hs he hco hq.1 hq.2
    obtain ⟨i1, i2, i3, i4⟩ := ih _ _ h2 h3 h4
      (fun x hx => hsafe x (List.mem_cons_of_mem _ hx))
    simp only [run]
    exact ⟨by rw [h1, i1], i2, i3, i4⟩

theorem get_hit (p : Bool) (env : Env) (st : State) (id : String) (t : Task)
    (hhit : RedisCache.Get (redisExpire st.cache env.expired) env.cacheGetFails id = some t) :
    (serve { cache := true, producer := p } env (.get id) st).1
      = { status := 200, body := .task t } := by
  simp only [serve, TaskHandler.Get, hhit, if_true]

theorem get_of_coherent (h : TaskHandler) (env : Env) (st : State) (id : String) (t : Task)
    (hco : Coherent st.cache st.store) (hg : PostgresStore.Get st.store none id = .ok t)
    (hf : env.dbFault1 = none) :
    (serve h env (.get id) st).1 = { status := 200, body := .task t } := by
  obtain ⟨hc, hp⟩ := h
  cases hc with
  | false => simp only [serve, TaskHandler.Get, hf, hg, Bool.false_eq_true, if_false]
  | true =>
    cases hhit : RedisCache.Get (redisExpire st.cache env.expired) env.cacheGetFails id with
    | some t2 =>
      have hl : (redisExpire st.cache env.expired).lookup (taskKey id) = some t2 := by
        unfold RedisCache.Get at hhit
        split at hhit
        · cases hhit
        · exact hhit
      have hg2 := coherent_expire st.cache st.store env.expired hco id t2 hl
      rw [hg] at hg2
      cases hg2
      exact get_hit hp env st id t hhit
    | none => simp only [serve, TaskHandler.Get, hhit, hf, hg, if_true]

theorem get_append_fresh (s : PostgresStore) (t : Task) (hfresh : ∀ r ∈ s, r.id ≠ t.id) :
    PostgresStore.Get (s ++ [t]) none t.id = .ok t := by
  have hnone : s.find? (fun r => decide (r.id = t.id)) = none := by
    rw [List.find?_eq_none]
    intro r hr
    simpa using hfresh r hr
  rw [get_none_eq, List.find?_append, hnone]
  simp

theorem create_then_state (h : TaskHandler) (env1 : Env) (body : Option CreateTaskRequest)
    (st st1 : State) (t : Task)
    (hc : serve h env1 (.create body) st = ({ status := 201, body := .task t }, st1)) :
    PostgresStore.Get st1.store none t.id =
      .ok { t with
        createdAt := timestamptz t.createdAt
        updatedAt := timestamptz t.updatedAt } ∧
    (Coherent st.cache st.store → Coherent st1.cache st1.store) := by
  cases body with
  | none =>
    simp only [serve, TaskHandler.Create, writeError, Prod.mk.injEq, Response.mk.injEq] at hc
    exact absurd hc.1.1 (by decide)
  | some req0 =>
    by_cases hv : (Validate req0).1 = ""
    · cases hcr : PostgresStore.Create st.store env1.uuid env1.now1 env1.now2 env1.dbFault1
          (Validate req0).2 with
      | error err =>
        simp only [serve, TaskHandler.Create, hv, hcr, ne_eq, not_true_eq_false, if_false,
          writeError, Prod.mk.injEq, Response.mk.injEq] at hc
        exact absurd hc.1.1 (by decide)
      | ok r =>
        obtain ⟨t2, s1⟩ := r
        obtain ⟨-, ht2, hfresh, hs1⟩ :=
          create_ok_spec st.store env1.uuid env1.now1 env1.now2 env1.dbFault1 _ t2 s1 hcr
        simp only [serve, TaskHandler.Create, hv, hcr, ne_eq, not_true_eq_false, if_false,
          Prod.mk.injEq, Response.mk.injEq, Body.task.injEq, true_and] at hc
        obtain ⟨htt, hst1⟩ := hc
        subst htt
        have hid : t2.id = env1.uuid := by rw [ht2]
        constructor
        · rw [← hst1]
          show PostgresStore.Get s1 none t2.id = _
          rw [hs1]
          exact get_append_fresh st.store
            { t2 with
              createdAt := timestamptz t2.createdAt
              updatedAt := timestamptz t2.updatedAt }
            (fun r hr => by rw [hid]; exact hfresh r hr)
        · intro hco
          have hco0 : Coherent (redisExpire st.cache env1.expired) st.store :=
            coherent_expire st.cache st.store _ hco
          rw [← hst1]
          show Coherent (if h.cache = true then
              RedisCache.InvalidateList (redisExpire st.cache env1.expired) env1.cacheInvalidateFails
            else redisExpire st.cache env1.expired) s1
          rw [hs1]
          split
          · exact coherent_append _ _ _ (coherent_invalidate _ _ _ hco0)
          · exact coherent_append _ _ _ hco0
    · simp only [serve, TaskHandler.Create, hv, ne_eq, not_false_eq_true, if_true,
        writeError, Prod.mk.injEq, Response.mk.injEq] at hc
      exact absurd hc.1.1 (by decide)

theorem create_then_get (h : TaskHandler) (env1 env2 : Env) (body : Option CreateTaskRequest)
    (st st1 : State) (t : Task) (hco : Coherent st.cache st.store)
    (hc : serve h env1 (.create body) st = ({ status := 201, body := .task t }, st1))
    (hf : env2.dbFault1 = none) :
    (serve h env2 (.get t.id) st1).1 =
      { status := 200
        body := .task { t with
          createdAt := timestamptz t.createdAt
          updatedAt := timestamptz t.updatedAt } } :=
  have hs := create_then_state h env1 body st st1 t hc
  get_of_coherent h env2 st1 t.id _ (hs.2 hco) hs.1 hf

/-- C9 as stated fails, three times. When the eviction of the cache entry
fails during an Update (the handler discards that error), the next Get is
answered from the cache with the task as it was before the update, while the
handler without a cache answers with the updated task. When the database
connection is refused during a Get of a cached task, the handler with the
cache answers 200 and the handler without it answers 500. And a Get that
follows a Create does not return the created task: the Create answers with
the clock readings, the Get with the whole microseconds the row keeps. -/
theorem cache_changes_answers :
    ((run { cache := true, producer := true } staleReads emptyState).1).getLast?
      = some { status := 200
               body := .task { id := "id-1", title := "Test", description := ""
                               status := "todo", priority := "medium"
                               createdAt := 1000, updatedAt := 1000 } } ∧
    ((run { cache := false, producer := true } staleReads emptyState).1).getLast?
      = some { status := 200
               body := .task { id := "id-1", title := "Test", description := ""
                               status := "done", priority := "medium"
                               createdAt := 1000, updatedAt := 3000 } } ∧
    (run { cache := true, producer := true } staleReads emptyState).1
      ≠ (run { cache := false, producer := true } staleReads emptyState).1 ∧
    ((run { cache := true, producer := true } outageReads emptyState).1).getLast?
      = some { status := 200
               body := .task { id := "id-1", title := "Test", description := ""
                               status := "todo", priority := "medium"
                               createdAt := 1000, updatedAt := 1000 } } ∧
    ((run { cache := false, producer := true } outageReads emptyState).1).getLast?
      = some (writeError 500 "failed to get task") ∧
    (run { cache := true, producer := true } outageReads emptyState).1
      ≠ (run { cache := false, producer := true } outageReads emptyState).1 ∧
    (run { cache := true, producer := true } roundTripReads emptyState).1
      = [ { status := 201
            body := .task { id := "id-1", title := "Test", description := ""
                            status := "todo", priority := "medium"
                            createdAt := 1500, updatedAt := 1500 } },
          { status := 200
            body := .task { id := "id-1", title := "Test", description := ""
                            status := "todo", priority := "medium"
                            createdAt := 1000, updatedAt := 1000 } } ] ∧
    (run { cache := false, producer := true } roundTripReads emptyState).1
      = (run { cache := true, producer := true } roundTripReads emptyState).1 := by
  decide

/-- C9 amended: from a state whose cache is coherent with the table (the
empty cache is), for every sequence of List, Get, Create, Update and Delete
requests during which no cache eviction fails and the store answers the query
of every Get without a driver error (cache reads and writes may fail and
entries may expire at any time), the responses, the resulting table and the
event log are the same with the cache as without it, and the cache stays
coherent. In the state reached, a Get answered from the cache returns exactly
the task the store holds under that id, and a Create answered 201 followed by
a Get of the created id, the store answering, returns the created task with
createdAt and updatedAt cut to whole microseconds, which is the row stored. -/
theorem cache_transparent (p : Bool) (reqs : List (Env × Request)) (st : State)
    (hco : Coherent st.cache st.store) (hsafe : EvictionsHold reqs) :
    (run { cache := true, producer := p } reqs st).1
      = (run { cache := false, producer := p } reqs st).1 ∧
    (run { cache := true, producer := p } reqs st).2.store
      = (run { cache := false, producer := p } reqs st).2.store ∧
    (run { cache := true, producer := p } reqs st).2.events
      = (run { cache := false, producer := p } reqs st).2.events ∧
    Coherent (run { cache := true, producer := p } reqs st).2.cache
      (run { cache := true, producer := p } reqs st).2.store ∧
    (∀ (env : Env) (id : String) (t : Task),
      RedisCache.Get (redisExpire (run { cache := true, producer := p } reqs st).2.cache
        env.expired) env.cacheGetFails id = some t →
      (serve { cache := true, producer := p } env (.get id)
        (run { cache := true, producer := p } reqs st).2).1
        = { status := 200, body := .task t } ∧
      PostgresStore.Get (run { cache := true, producer := p } reqs st).2.store none id
        = .ok t) ∧
    (∀ (h : TaskHandler) (env1 env2 : Env) (body : Option CreateTaskRequest) (t : Task)
      (st1 : State),
      serve h env1 (.create body) (run { cache := true, producer := p } reqs st).2
        = ({ status := 201, body := .task t }, st1) →
      env2.dbFault1 = none →
      (serve h env2 (.get t.id) st1).1 =
        { status := 200
          body := .task { t with
            createdAt := timestamptz t.createdAt
            updatedAt := timestamptz t.updatedAt } } ∧
      PostgresStore.Get st1.store none t.id =
        .ok { t with
          createdAt := timestamptz t.createdAt
          updatedAt := timestamptz t.updatedAt }) := by
  obtain ⟨h1, h2, h3, h4⟩ := sim_run p reqs st st rfl rfl hco hsafe
  refine ⟨h1, h2, h3, h4, ?_, ?_⟩
  · intro env id t hhit
    refine ⟨get_hit p env _ id t hhit, ?_⟩
    have hl : (redisExpire (run { cache := true, producer := p } reqs st).2.cache
        env.expired).lookup (taskKey id) = some t := by
      unfold RedisCache.Get at hhit
      split at hhit
      · cases hhit
      · exact hhit
    exact coherent_expire _ _ env.expired h4 id t hl
  · intro h env1 env2 body t st1 hc hf
    exact ⟨create_then_get h env1 env2 body _ st1 t h4 hc hf,
      (create_then_state h env1 body _ st1 t hc).1⟩

theorem quietReads_evictionsHold : EvictionsHold quietReads := by
  intro q hq
  simp only [quietReads, List.mem_cons, List.mem_singleton, List.not_mem_nil, or_false] at hq
  rcases hq with rfl | rfl
  · exact ⟨rfl, fun _ _ => rfl⟩
  · exact ⟨rfl, fun _ _ => rfl⟩

theorem cache_transparent_witness :
    Coherent emptyState.cache emptyState.store ∧ EvictionsHold quietReads ∧
    (run { cache := true, producer := true } quietReads emptyState).1
      = (run { cache := false, producer := true } quietReads emptyState).1 :=
  ⟨coherent_nil _, quietReads_evictionsHold,
    (cache_transparent true quietReads emptyState (coherent_nil _)
      quietReads_evictionsHold).1⟩

end DemoApi
